import Mathlib

/-!
Verification development for the julie marketplace backend
(accounts / authentication Django apps).

The Python source is shallowly embedded: Django model rows become Lean
structures, tables become lists of rows, and each view / serializer /
manager method under scrutiny becomes an explicit state-passing function
over those lists.  Auto-managed bookkeeping columns (`created_at`,
`updated_at`, uuid surrogates) are omitted; primary keys are `Nat`.
Fallible operations return `Except` (or pair the resulting store with an
`Except`, when the source performs no rollback and the partial writes
must stay visible, as the code runs in autocommit mode with no
`transaction.atomic` anywhere).
-/

namespace Julie

/-! ## External password-hashing collaborator

`set_password` / `check_password` are delegated to Django.  They are
modelled by an injective derivation that tags the plain text with the
algorithm marker, mirroring Django's `algorithm$...` hash format: the
development only relies on (a) `checkPassword p (hashPassword p) = true`,
(b) injectivity, (c) `hashPassword p` is never equal to `p` itself. -/

def hashPassword (p : String) : String :=
  "pbkdf2_sha256$" ++ p

def checkPassword (p h : String) : Bool :=
  hashPassword p == h

/-! ## accounts/models.py : CustomUser rows -/

/-- One row of the `CustomUser` table.  `password` stores the derived
hash (written only through the `set_password` path), `is_active`
defaults to `True` in the model; the remaining writable columns
(first_name, email, address lines, location references, ...) are
collapsed into the `attrs` association list, written through Python
`setattr`. -/
structure CustomUser where
  id : Nat
  mobile_no : String
  password : String
  is_active : Bool
  attrs : List (String × String)
  deriving DecidableEq, Repr

/-- Errors raised by `CustomUserManager.create_user` (Python
`ValueError` for the validation chain — the `ValidationError` of the
spec taxonomy) and by the database unique constraint on `mobile_no`
(the spec's `ConflictError`). -/
inductive UserErr where
  | valueError (msg : String)
  | conflict
  deriving DecidableEq, Repr

/-- Python `str.isdigit` (over the ASCII inputs in play): every
character is a decimal digit. -/
def pyIsDigit (s : String) : Bool := s.data.all Char.isDigit

/-- Python `str.startswith` with the one-character argument used by the
source: the first character is `0`. -/
def pyStartsWithZero (s : String) : Bool :=
  match s.data with
  | c :: _ => c == '0'
  | [] => false

/-- accounts/models.py, `CustomUserManager.create_user`: the validation
chain on the mobile number and password, then construction of the row
with `set_password` and `save`.  The unique constraint on `mobile_no`
fires at `save`.  On error nothing is persisted (the raise happens
before `save`). -/
def create_user (users : List CustomUser) (mobile_no password : String)
    (extra : List (String × String)) : Except UserErr (List CustomUser × CustomUser) :=
  if mobile_no = "" then
    .error (.valueError "The Mobile Number must be set")
  else if !(pyIsDigit mobile_no) then
    .error (.valueError "The Mobile Number must be a number")
  else if !(pyStartsWithZero mobile_no) then
    .error (.valueError "The Mobile Number must start with 0")
  else if mobile_no.length ≠ 11 then
    .error (.valueError "The Mobile Number must be 11 digits")
  else if password = "" then
    .error (.valueError "The Password must be set")
  else if users.any (fun u => u.mobile_no == mobile_no) then
    .error .conflict
  else
    let u : CustomUser :=
      { id := users.length, mobile_no := mobile_no,
        password := hashPassword password, is_active := true, attrs := extra }
    .ok (users ++ [u], u)

/-- django.contrib.auth ModelBackend `authenticate`: fetch by the
USERNAME_FIELD `mobile_no`, verify the password hash, and reject
inactive accounts (`user_can_authenticate`); `none` on any failure. -/
def authenticate (users : List CustomUser) (mobile_no password : String) :
    Option CustomUser :=
  match users.find? (fun u => u.mobile_no == mobile_no) with
  | none => none
  | some u =>
      if checkPassword password u.password && u.is_active then some u else none

/-- Outcome of authentication/views.py `login_user`. -/
inductive LoginResp where
  | ok (u : CustomUser)
  | badRequest
  | deactivated
  | invalidCredentials
  deriving DecidableEq, Repr

/-- authentication/views.py, `login_user`: required-field check, then
`authenticate`, then the `is_active` branch, else 401 invalid
credentials (the spec's `AuthError`). -/
def login_user (users : List CustomUser) (mobile_no password : String) : LoginResp :=
  if mobile_no = "" || password = "" then .badRequest
  else
    match authenticate users mobile_no password with
    | some u => if u.is_active then .ok u else .deactivated
    | none => .invalidCredentials

/-! ## Basic facts about the hashing collaborator -/

theorem hashPassword_injective {p q : String} (h : hashPassword p = hashPassword q) :
    p = q := by
  have hd : ("pbkdf2_sha256$" ++ p).data = ("pbkdf2_sha256$" ++ q).data := by
    simpa [hashPassword] using congrArg String.data h
  simp only [String.data_append] at hd
  exact String.ext (List.append_cancel_left hd)

theorem hashPassword_ne_self (p : String) : hashPassword p ≠ p := by
  intro h
  have hlen : (hashPassword p).length = p.length := congrArg String.length h
  simp only [hashPassword, String.length_append] at hlen
  have h14 : ("pbkdf2_sha256$" : String).length = 14 := rfl
  omega

theorem checkPassword_self (p : String) : checkPassword p (hashPassword p) = true := by
  simp [checkPassword]

theorem checkPassword_of_ne {p q : String} (h : p ≠ q) :
    checkPassword p (hashPassword q) = false := by
  simp only [checkPassword, beq_iff_eq]
  simp only [beq_eq_false_iff_ne, ne_eq]
  intro hc
  exact h (hashPassword_injective hc)

/-! ## accounts/serializers.py : nested user patches

`BuyerSerializer.update` and `SellerSerializer.update` run the same
loop over the validated nested `user` dict: a `password` key goes
through `set_password`, every other key through `setattr`. -/

/-- Python `setattr` on the collapsed attribute columns: overwrite the
existing binding for the key, keeping one binding per key. -/
def setAttr (attrs : List (String × String)) (k v : String) :
    List (String × String) :=
  if attrs.any (fun kv => kv.1 == k) then
    attrs.map (fun kv => if kv.1 == k then (k, v) else kv)
  else
    attrs ++ [(k, v)]

/-- The `for field, value in user_data.items()` loop shared by
`BuyerSerializer.update` and `SellerSerializer.update`:
`password` is routed through `set_password` (never `setattr`);
`mobile_no` is a real column of the model; everything else lands in the
collapsed `attrs` columns; then `user.save()`. -/
def applyUserPatch (u : CustomUser) (patch : List (String × String)) : CustomUser :=
  patch.foldl
    (fun u kv =>
      if kv.1 == "password" then { u with password := hashPassword kv.2 }
      else if kv.1 == "mobile_no" then { u with mobile_no := kv.2 }
      else { u with attrs := setAttr u.attrs kv.1 kv.2 })
    u

/-! ## accounts/models.py : Buyer / Seller / Shop rows -/

/-- One row of the `Buyer` table. -/
structure Buyer where
  id : Nat
  user : Nat
  is_premium_customer : Bool
  preferred_payment_method : String
  deriving DecidableEq, Repr

/-- One row of the `Seller` table. -/
structure Seller where
  id : Nat
  user : Nat
  is_free_plan : Bool
  is_premium_plan : Bool
  deriving DecidableEq, Repr

/-- One row of the `Shop` table.  The ~35 descriptive, contact, permit
and banking columns are collapsed into `attrs`; `shop_type` is kept
explicit as the discriminating enum. -/
structure Shop where
  id : Nat
  seller : Nat
  shop_type : String
  attrs : List (String × String)
  deriving DecidableEq, Repr

/-- Validated nested `user` payload of `BuyerSerializer` /
`SellerSerializer` (password popped separately by the create path). -/
structure UserInput where
  mobile_no : String
  password : String
  extra : List (String × String)
  deriving DecidableEq, Repr

/-- Validated `shop` payload of `ShopCreateSerializer`. -/
structure ShopInput where
  shop_type : String
  attrs : List (String × String)
  deriving DecidableEq, Repr

/-- Validated payload of `SellerSerializer` for creation: nested user,
optional nested shop, and the seller plan columns. -/
structure SellerInput where
  user : UserInput
  shop : Option ShopInput
  is_free_plan : Bool
  is_premium_plan : Bool
  deriving DecidableEq, Repr

/-- The three tables touched by the seller aggregate-creation path. -/
structure MarketStore where
  users : List CustomUser
  sellers : List Seller
  shops : List Shop
  deriving DecidableEq, Repr

inductive SellerCreateErr where
  | userErr (e : UserErr)
  | typeError (msg : String)
  deriving DecidableEq, Repr

/-- accounts/serializers.py, `SellerSerializer.create`, translated with
its actual control flow.  The source pops `user`, `password` and
`mobile_no`, calls `create_user` (commit one — autocommit, no enclosing
transaction), then calls `Seller.objects.create(user=user,
**validated_data)` while `validated_data` still contains the `shop` key
when a shop payload was supplied: Django's model constructor rejects
the unknown `shop` keyword with a `TypeError`, after the user row has
already been committed.  Only when no shop was supplied does the seller
row get created; the `if 'shop' in validated_data` block that would
create the Shop is then never entered, so this path never writes a
Shop row at all.  The store is returned alongside the outcome because
failures do not roll back earlier commits. -/
def sellerSerializerCreate (st : MarketStore) (vd : SellerInput) :
    MarketStore × Except SellerCreateErr Seller :=
  match create_user st.users vd.user.mobile_no vd.user.password vd.user.extra with
  | .error e => (st, .error (.userErr e))
  | .ok (users2, u) =>
      let st1 : MarketStore := { st with users := users2 }
      if vd.shop.isSome then
        (st1, .error (.typeError "Seller() got unexpected keyword arguments: shop"))
      else
        let seller : Seller :=
          { id := st1.sellers.length, user := u.id,
            is_free_plan := vd.is_free_plan, is_premium_plan := vd.is_premium_plan }
        ({ st1 with sellers := st1.sellers ++ [seller] }, .ok seller)

/-- Buyer-side patch of `BuyerSerializer.update` (its own columns). -/
structure BuyerPatch where
  is_premium_customer : Option Bool
  preferred_payment_method : Option String
  deriving DecidableEq, Repr

/-- accounts/serializers.py, `BuyerSerializer.update`: apply the nested
user patch (if present) through the shared loop, then merge the buyer
columns field by field. -/
def buyerSerializerUpdate (b : Buyer) (u : CustomUser)
    (userPatch : Option (List (String × String))) (p : BuyerPatch) :
    Buyer × CustomUser :=
  let u2 := match userPatch with
    | some patch => applyUserPatch u patch
    | none => u
  let b2 := { b with
    is_premium_customer := p.is_premium_customer.getD b.is_premium_customer,
    preferred_payment_method :=
      p.preferred_payment_method.getD b.preferred_payment_method }
  (b2, u2)

/-- Seller-side patch of `SellerSerializer.update` (its own columns;
the `shop` key is explicitly skipped by the source loop). -/
structure SellerPatch where
  is_free_plan : Option Bool
  is_premium_plan : Option Bool
  shop : Option ShopInput
  deriving DecidableEq, Repr

/-- accounts/serializers.py, `SellerSerializer.update`: apply the nested
user patch (if present) through the shared loop, then merge the seller
columns, skipping the `shop` key. -/
def sellerSerializerUpdate (s : Seller) (u : CustomUser)
    (userPatch : Option (List (String × String))) (p : SellerPatch) :
    Seller × CustomUser :=
  let u2 := match userPatch with
    | some patch => applyUserPatch u patch
    | none => u
  let s2 := { s with
    is_free_plan := p.is_free_plan.getD s.is_free_plan,
    is_premium_plan := p.is_premium_plan.getD s.is_premium_plan }
  (s2, u2)

/-! ## accounts/models.py : BuyerShippingAddress / BuyerPaymentMethod -/

/-- One row of the `BuyerShippingAddress` table (timestamps omitted). -/
structure BuyerShippingAddress where
  id : Nat
  buyer : Nat
  address1 : Option String
  address2 : Option String
  barangay : Option Nat
  city : Option Nat
  province : Option Nat
  region : Option Nat
  country : Option Nat
  zip_code : Option String
  geolocation : Option String
  latitude : Option ℚ
  longitude : Option ℚ
  google_maps_url : Option String
  google_maps_image : Option String
  is_active : Bool
  is_default : Bool
  is_verified : Bool
  is_deleted : Bool
  is_approved : Bool
  deriving DecidableEq, Repr

/-- One row of the `BuyerPaymentMethod` table (timestamps omitted; the
JSON details blob kept as an opaque string). -/
structure BuyerPaymentMethod where
  id : Nat
  buyer : Nat
  payment_method : String
  payment_method_details : Option String
  bank_card_type : Option String
  bank_card_brand : Option String
  bank_card_last4 : Option String
  bank_card_exp_month : Option String
  bank_card_exp_year : Option String
  bank_card_name : Option String
  bank_card_number : Option String
  is_active : Bool
  is_default : Bool
  is_verified : Bool
  is_deleted : Bool
  is_approved : Bool
  deriving DecidableEq, Repr

/-- The two buyer-owned tables touched by the set-default actions. -/
structure BuyerStore where
  addresses : List BuyerShippingAddress
  payments : List BuyerPaymentMethod
  deriving DecidableEq, Repr

/-- accounts/views/buyer_views.py,
`BuyerShippingAddressViewSet.set_default`: `self.get_object()` fetches
the row by pk (404 when absent), then
`filter(buyer=shipping_address.buyer).update(is_default=False)` clears
the flag on every address of that buyer, then the fetched instance is
saved with `is_default = True` (the save writes the instance's fields,
which are the fetched values except the flag).  Only the `addresses`
table is queried or written. -/
def shippingSetDefault (st : BuyerStore) (targetId : Nat) :
    Except String BuyerStore :=
  match st.addresses.find? (fun a => a.id == targetId) with
  | none => .error "Shipping address not found"
  | some a =>
      let cleared := st.addresses.map
        (fun x => if x.buyer == a.buyer then { x with is_default := false } else x)
      let final := cleared.map
        (fun x => if x.id == targetId then { a with is_default := true } else x)
      .ok { st with addresses := final }

/-- accounts/views/buyer_views.py,
`BuyerPaymentMethodViewSet.set_default`: same clear-then-save shape
over the `payments` table only. -/
def paymentSetDefault (st : BuyerStore) (targetId : Nat) :
    Except String BuyerStore :=
  match st.payments.find? (fun m => m.id == targetId) with
  | none => .error "Payment method not found"
  | some m =>
      let cleared := st.payments.map
        (fun x => if x.buyer == m.buyer then { x with is_default := false } else x)
      let final := cleared.map
        (fun x => if x.id == targetId then { m with is_default := true } else x)
      .ok { st with payments := final }

/-- A sequence of set-default calls on shipping addresses; a failed
call (404) writes nothing and the sequence continues. -/
def runShippingSetDefaults (st : BuyerStore) (ts : List Nat) : BuyerStore :=
  ts.foldl (fun s t => match shippingSetDefault s t with
    | .ok s2 => s2
    | .error _ => s) st

/-- A sequence of set-default calls on payment methods. -/
def runPaymentSetDefaults (st : BuyerStore) (ts : List Nat) : BuyerStore :=
  ts.foldl (fun s t => match paymentSetDefault s t with
    | .ok s2 => s2
    | .error _ => s) st

/-- Pairwise-distinct primary keys, as the database guarantees. -/
def distinctIds (ids : List Nat) : Prop := ids.Nodup

instance (ids : List Nat) : Decidable (distinctIds ids) :=
  inferInstanceAs (Decidable ids.Nodup)

/-- Number of default rows a given buyer owns in an address table. -/
def addrDefaultCount (addrs : List BuyerShippingAddress) (b : Nat) : Nat :=
  (addrs.filter (fun x => x.buyer == b && x.is_default)).length

/-- Number of default rows a given buyer owns in a payment table. -/
def payDefaultCount (pays : List BuyerPaymentMethod) (b : Nat) : Nat :=
  (pays.filter (fun x => x.buyer == b && x.is_default)).length

/-- The singleton-default invariant: every buyer owns at most one
default row of each of the two entity types. -/
def atMostOneDefault (st : BuyerStore) : Prop :=
  (∀ b : Nat, addrDefaultCount st.addresses b ≤ 1) ∧
  (∀ b : Nat, payDefaultCount st.payments b ≤ 1)

/-! ## accounts/models.py : the five-level geography tree -/

/-- One row of the `Country` table. -/
structure Country where
  id : Nat
  name : String
  code : String
  is_default : Bool
  deriving DecidableEq, Repr

/-- One row of the `Region` table; `country` is the parent foreign key
declared `on_delete=CASCADE`. -/
structure Region where
  id : Nat
  name : String
  country : Nat
  full_name : Option String
  is_default : Bool
  deriving DecidableEq, Repr

/-- One row of the `Province` table (parent: region, CASCADE). -/
structure Province where
  id : Nat
  name : String
  region : Nat
  full_name : Option String
  is_default : Bool
  deriving DecidableEq, Repr

/-- One row of the `City` table (parent: province, CASCADE). -/
structure City where
  id : Nat
  name : String
  province : Nat
  full_name : Option String
  is_default : Bool
  deriving DecidableEq, Repr

/-- One row of the `Barangay` table (parent: city, CASCADE). -/
structure Barangay where
  id : Nat
  name : String
  city : Nat
  full_name : Option String
  is_default : Bool
  deriving DecidableEq, Repr

/-- The five tables of the address hierarchy. -/
structure GeoStore where
  countries : List Country
  regions : List Region
  provinces : List Province
  cities : List City
  barangays : List Barangay
  deriving DecidableEq, Repr

/-- Primary keys of the regions the deletion collector gathers under
the country `cid`. -/
def deadRegionIds (s : GeoStore) (cid : Nat) : List Nat :=
  (s.regions.filter (fun r => r.country == cid)).map (fun r => r.id)

/-- Primary keys of the provinces collected under those regions. -/
def deadProvinceIds (s : GeoStore) (cid : Nat) : List Nat :=
  (s.provinces.filter (fun p => (deadRegionIds s cid).contains p.region)).map
    (fun p => p.id)

/-- Primary keys of the cities collected under those provinces. -/
def deadCityIds (s : GeoStore) (cid : Nat) : List Nat :=
  (s.cities.filter (fun c => (deadProvinceIds s cid).contains c.province)).map
    (fun c => c.id)

/-- accounts/views/address_lookup_views.py,
`CountryViewSet.perform_destroy` → `instance.delete()`: Django's
deletion collector walks the `on_delete=CASCADE` foreign keys level by
level — regions whose `country` is the deleted row, provinces whose
`region` is among the collected regions, and so on down to barangays —
and deletes them all.  `get_object` raises a 404 first when the pk does
not exist. -/
def deleteCountry (s : GeoStore) (cid : Nat) : Except String GeoStore :=
  if s.countries.any (fun c => c.id == cid) then
    .ok
      { countries := s.countries.filter (fun c => !(c.id == cid)),
        regions := s.regions.filter (fun r => !(r.country == cid)),
        provinces :=
          s.provinces.filter (fun p => !((deadRegionIds s cid).contains p.region)),
        cities :=
          s.cities.filter (fun c => !((deadProvinceIds s cid).contains c.province)),
        barangays :=
          s.barangays.filter (fun b => !((deadCityIds s cid).contains b.city)) }
  else .error "Country not found"

/-- A region is a direct child of the country `cid`. -/
def regionUnder (cid : Nat) (r : Region) : Prop := r.country = cid

/-- A province descends from the country `cid` (through some region row
of the store). -/
def provinceUnder (s : GeoStore) (cid : Nat) (p : Province) : Prop :=
  ∃ r ∈ s.regions, r.id = p.region ∧ r.country = cid

/-- A city descends from the country `cid`. -/
def cityUnder (s : GeoStore) (cid : Nat) (c : City) : Prop :=
  ∃ p ∈ s.provinces, p.id = c.province ∧ provinceUnder s cid p

/-- A barangay descends from the country `cid`. -/
def barangayUnder (s : GeoStore) (cid : Nat) (b : Barangay) : Prop :=
  ∃ c ∈ s.cities, c.id = b.city ∧ cityUnder s cid c

/-- accounts/views/address_lookup_views.py, `CountryViewSet.regions`
(the `regions` action): fetch the country by pk (404 when absent), then
`Region.objects.filter(country=country)` — direct children only. -/
def regionsOf (s : GeoStore) (cid : Nat) :
    Except String (String × List Region) :=
  match s.countries.find? (fun c => c.id == cid) with
  | none => .error "Country not found"
  | some c => .ok (c.name, s.regions.filter (fun r => r.country == c.id))

/-- Case folding of Django `__icontains`, character by character. -/
def foldCase (s : String) : List Char := s.data.map Char.toLower

/-- Django `name__icontains`: case-insensitive substring match. -/
def icontains (hay needle : String) : Bool :=
  decide (foldCase needle <:+: foldCase hay)

/-- accounts/views/address_lookup_views.py,
`RegionViewSet.get_queryset`: optional `name` filter (`icontains`,
skipped when the parameter is absent or empty — Python falsiness) and
optional `country` filter by parent id. -/
def regionQueryset (s : GeoStore) (name : Option String) (country : Option Nat) :
    List Region :=
  let q := s.regions
  let q := match name with
    | some n => if n = "" then q else q.filter (fun r => icontains r.name n)
    | none => q
  match country with
  | some c => q.filter (fun r => r.country == c)
  | none => q

/-! ## accounts/views/buyer_views.py : BuyerViewSet.stats -/

/-- Python `round` (banker's rounding) of a rational to an integer; the
source computes on floats, modelled here as exact rationals. -/
def roundHalfEven (q : ℚ) : ℤ :=
  let f := ⌊q⌋
  let r := q - f
  if r < 1/2 then f
  else if 1/2 < r then f + 1
  else if Even f then f else f + 1

/-- Python `round(x, 2)`. -/
def pyRound2 (q : ℚ) : ℚ := (roundHalfEven (q * 100) : ℚ) / 100

/-- The payload assembled by `BuyerViewSet.stats`. -/
structure BuyerStats where
  total_buyers : Nat
  premium_buyers : Nat
  active_buyers : Nat
  premium_percentage : ℚ
  deriving DecidableEq, Repr

/-- accounts/views/buyer_views.py, `BuyerViewSet.stats`: the three
counts, and `round(premium_buyers / total_buyers * 100, 2) if
total_buyers > 0 else 0`. -/
def buyerStats (users : List CustomUser) (buyers : List Buyer) : BuyerStats :=
  let total := buyers.length
  let premium := (buyers.filter (fun b => b.is_premium_customer)).length
  let active :=
    (buyers.filter (fun b => users.any (fun u => u.id == b.user && u.is_active))).length
  { total_buyers := total, premium_buyers := premium, active_buyers := active,
    premium_percentage :=
      if total > 0 then pyRound2 ((premium : ℚ) / (total : ℚ) * 100) else 0 }

/-! ## Concrete demonstration data -/

def demoUserInput : UserInput :=
  { mobile_no := "09171234567", password := "secretpw", extra := [] }

def demoShopInput : ShopInput := { shop_type := "water", attrs := [] }

def emptyMarket : MarketStore := { users := [], sellers := [], shops := [] }

/-- The user row `create_user` produces from `demoUserInput` on an
empty table. -/
def demoUser : CustomUser :=
  { id := 0, mobile_no := "09171234567", password := hashPassword "secretpw",
    is_active := true, attrs := [] }

/-! ## C4 : mobile-number validation -/

/-- C4.  `CustomUserManager.create_user` accepts exactly the 11-digit,
leading-zero, all-numeric mobile number: "09171234567" is accepted and
the identity stored (with a hashed password), while "9171234567" (no
leading zero), "091712345678" (12 digits) and "0917abc4567"
(non-numeric) are each rejected by the validation chain with the
corresponding validation error, whatever the prior table contents and
the password — and the raise happens before `save`, so no identity row
is created. -/
theorem mobile_number_validation :
    (create_user [] "09171234567" "secretpw" [] = .ok ([demoUser], demoUser)) ∧
    (∀ users p e, create_user users "9171234567" p e =
      .error (.valueError "The Mobile Number must start with 0")) ∧
    (∀ users p e, create_user users "091712345678" p e =
      .error (.valueError "The Mobile Number must be 11 digits")) ∧
    (∀ users p e, create_user users "0917abc4567" p e =
      .error (.valueError "The Mobile Number must be a number")) := by
  refine ⟨rfl, ?_, ?_, ?_⟩ <;> intro users p e <;> rfl

/-! ## C10 : buyer statistics is total on the empty store -/

/-- C10.  `BuyerViewSet.stats` is total with respect to an empty store:
when the buyer count is zero the premium percentage is 0 and the
division is never taken; when the count is positive the percentage is
exactly the guarded rounded ratio. -/
theorem stats_zero_guard (users : List CustomUser) (buyers : List Buyer) :
    ((buyerStats users buyers).total_buyers = 0 →
      (buyerStats users buyers).premium_percentage = 0) ∧
    (0 < (buyerStats users buyers).total_buyers →
      (buyerStats users buyers).premium_percentage =
        pyRound2 (((buyerStats users buyers).premium_buyers : ℚ) /
          ((buyerStats users buyers).total_buyers : ℚ) * 100)) := by
  constructor
  · intro h
    simp only [buyerStats] at h ⊢
    simp [h]
  · intro h
    simp only [buyerStats] at h ⊢
    rw [if_pos h]

/-- Witness for C10 at the empty store. -/
theorem stats_zero_guard_witness :
    (buyerStats [] []).premium_percentage = 0 :=
  (stats_zero_guard [] []).1 rfl

/-! ## C2 : no rollback of the seller aggregate -/

/-- C2 (refuting evaluation).  Running the seller-creation path on an
empty store with a shop payload fails (the Seller constructor rejects
the stray `shop` key), yet the Identity row created first is still
present afterwards: nothing rolls back, contradicting the claimed
aggregate atomicity. -/
theorem seller_create_failure_keeps_identity :
    (∃ msg, (sellerSerializerCreate emptyMarket
        { user := demoUserInput, shop := some demoShopInput,
          is_free_plan := false, is_premium_plan := false }).2 =
      .error (.typeError msg)) ∧
    (sellerSerializerCreate emptyMarket
        { user := demoUserInput, shop := some demoShopInput,
          is_free_plan := false, is_premium_plan := false }).1.users =
      [demoUser] := by
  exact ⟨⟨"Seller() got unexpected keyword arguments: shop", rfl⟩, rfl⟩

/-! ## C3 : shop provisioning during seller creation -/

/-- C3 (refuting evaluation).  Supplying shop attributes makes
`SellerSerializer.create` fail with a `TypeError` — no Seller and no
Shop row is created (the shop-creation block is unreachable) — while
omitting them succeeds and produces a Seller with no Shop. -/
theorem seller_create_with_shop_fails :
    ((sellerSerializerCreate emptyMarket
        { user := demoUserInput, shop := some demoShopInput,
          is_free_plan := false, is_premium_plan := false }).2 =
      .error (.typeError "Seller() got unexpected keyword arguments: shop")) ∧
    ((sellerSerializerCreate emptyMarket
        { user := demoUserInput, shop := some demoShopInput,
          is_free_plan := false, is_premium_plan := false }).1.sellers = []) ∧
    ((sellerSerializerCreate emptyMarket
        { user := demoUserInput, shop := some demoShopInput,
          is_free_plan := false, is_premium_plan := false }).1.shops = []) ∧
    ((sellerSerializerCreate emptyMarket
        { user := demoUserInput, shop := none,
          is_free_plan := false, is_premium_plan := false }).2 =
      .ok { id := 0, user := 0, is_free_plan := false, is_premium_plan := false }) ∧
    ((sellerSerializerCreate emptyMarket
        { user := demoUserInput, shop := none,
          is_free_plan := false, is_premium_plan := false }).1.shops = []) := by
  exact ⟨rfl, rfl, rfl, rfl, rfl⟩

/-! ## C5 : registration followed by authentication -/

/-- Successful `create_user` characterised: the checks all passed, the
new row is appended, and it carries the derived hash and the active
flag. -/
lemma create_user_ok {users users2 : List CustomUser} {m p : String}
    {e : List (String × String)} {u : CustomUser}
    (hok : create_user users m p e = .ok (users2, u)) :
    m ≠ "" ∧ p ≠ "" ∧ (∀ v ∈ users, v.mobile_no ≠ m) ∧
    users2 = users ++ [u] ∧
    u = { id := users.length, mobile_no := m, password := hashPassword p,
          is_active := true, attrs := e } := by
  unfold create_user at hok
  split_ifs at hok with h1 h2 h3 h4 h5 h6
  all_goals try simp at hok
  have hnone : ∀ v ∈ users, v.mobile_no ≠ m := by
    intro v hv
    by_contra hc
    refine h6 ?_
    simp only [List.any_eq_true]
    exact ⟨v, hv, by simp [hc]⟩
  obtain ⟨hl, hr⟩ := hok
  subst hr
  exact ⟨h1, h5, hnone, hl.symm, rfl⟩

/-- After a successful `create_user`, the new row is the one `find?`
returns for its mobile number. -/
lemma find?_after_create {users users2 : List CustomUser} {m p : String}
    {e : List (String × String)} {u : CustomUser}
    (hok : create_user users m p e = .ok (users2, u)) :
    users2.find? (fun v => v.mobile_no == m) = some u := by
  obtain ⟨-, -, hnone, hst, hu⟩ := create_user_ok hok
  subst hst
  rw [List.find?_append]
  have h0 : users.find? (fun v => v.mobile_no == m) = none := by
    rw [List.find?_eq_none]
    intro v hv
    simp [hnone v hv]
  rw [h0]
  simp [List.find?, hu]

/-- C5.  A registered identity authenticates with the credentials it
registered with (the endpoint returns it with a 200), and any attempt
with a different password is rejected: `authenticate` yields no user,
which the login endpoint reports as invalid credentials — the
`AuthError` of the taxonomy. -/
theorem register_then_authenticate
    (users users2 : List CustomUser) (m p : String)
    (e : List (String × String)) (u : CustomUser)
    (hok : create_user users m p e = .ok (users2, u)) :
    login_user users2 m p = .ok u ∧
    (∀ q, q ≠ p → authenticate users2 m q = none) ∧
    (∀ q, q ≠ p → q ≠ "" → login_user users2 m q = .invalidCredentials) := by
  obtain ⟨hm, hp, -, -, hu⟩ := create_user_ok hok
  have hfind := find?_after_create hok
  have hauth : authenticate users2 m p = some u := by
    unfold authenticate
    rw [hfind]
    simp [hu, checkPassword_self]
  have hwrong : ∀ q, q ≠ p → authenticate users2 m q = none := by
    intro q hq
    unfold authenticate
    rw [hfind]
    simp [hu, checkPassword_of_ne hq]
  refine ⟨?_, hwrong, ?_⟩
  · unfold login_user
    rw [hauth]
    simp [hm, hp, hu]
  · intro q hq hq0
    unfold login_user
    rw [hwrong q hq]
    simp [hm, hq0]

/-- Witness for C5: the demo registration authenticates, and a wrong
password is rejected. -/
theorem register_then_authenticate_witness :
    login_user [demoUser] "09171234567" "secretpw" = .ok demoUser ∧
    authenticate [demoUser] "09171234567" "wrongpw" = none := by
  have h := register_then_authenticate [] [demoUser] "09171234567" "secretpw" []
    demoUser rfl
  exact ⟨h.1, h.2.1 "wrongpw" (by simp)⟩

/-! ## C7 : cascade delete of a country -/

lemma mem_deadRegionIds {s : GeoStore} {cid x : Nat} :
    x ∈ deadRegionIds s cid ↔ ∃ r ∈ s.regions, r.id = x ∧ r.country = cid := by
  simp only [deadRegionIds, List.mem_map, List.mem_filter, beq_iff_eq]
  constructor
  · rintro ⟨r, ⟨hr, hc⟩, hid⟩
    exact ⟨r, hr, hid, hc⟩
  · rintro ⟨r, hr, hid, hc⟩
    exact ⟨r, ⟨hr, hc⟩, hid⟩

lemma mem_deadProvinceIds {s : GeoStore} {cid x : Nat} :
    x ∈ deadProvinceIds s cid ↔
      ∃ p ∈ s.provinces, p.id = x ∧ provinceUnder s cid p := by
  simp only [deadProvinceIds, List.mem_map, List.mem_filter, List.elem_iff,
    mem_deadRegionIds, provinceUnder]
  constructor
  · rintro ⟨p, ⟨hp, r, hr, hid, hc⟩, hx⟩
    exact ⟨p, hp, hx, r, hr, hid, hc⟩
  · rintro ⟨p, hp, hx, r, hr, hid, hc⟩
    exact ⟨p, ⟨hp, r, hr, hid, hc⟩, hx⟩

lemma mem_deadCityIds {s : GeoStore} {cid x : Nat} :
    x ∈ deadCityIds s cid ↔ ∃ c ∈ s.cities, c.id = x ∧ cityUnder s cid c := by
  simp only [deadCityIds, List.mem_map, List.mem_filter, List.elem_iff,
    mem_deadProvinceIds, cityUnder]
  constructor
  · rintro ⟨c, ⟨hc, p, hp, hid, hu⟩, hx⟩
    exact ⟨c, hc, hx, p, hp, hid, hu⟩
  · rintro ⟨c, hc, hx, p, hp, hid, hu⟩
    exact ⟨c, ⟨hc, p, hp, hid, hu⟩, hx⟩

/-- C7.  After a successful country deletion nothing descending from
the deleted country remains — no region whose parent is the country,
no province under those regions, no city under those provinces, no
barangay under those cities, and the country row itself is gone —
while every node not descending from it survives. -/
theorem delete_country_cascades (s s2 : GeoStore) (cid : Nat)
    (hok : deleteCountry s cid = .ok s2) :
    (∀ c ∈ s2.countries, c.id ≠ cid) ∧
    (∀ r ∈ s2.regions, ¬ regionUnder cid r) ∧
    (∀ p ∈ s2.provinces, ¬ provinceUnder s cid p) ∧
    (∀ c ∈ s2.cities, ¬ cityUnder s cid c) ∧
    (∀ b ∈ s2.barangays, ¬ barangayUnder s cid b) ∧
    (∀ r ∈ s.regions, ¬ regionUnder cid r → r ∈ s2.regions) ∧
    (∀ p ∈ s.provinces, ¬ provinceUnder s cid p → p ∈ s2.provinces) ∧
    (∀ c ∈ s.cities, ¬ cityUnder s cid c → c ∈ s2.cities) ∧
    (∀ b ∈ s.barangays, ¬ barangayUnder s cid b → b ∈ s2.barangays) := by
  unfold deleteCountry at hok
  split_ifs at hok with hex
  · simp only [Except.ok.injEq] at hok
    subst hok
    have hprov : ∀ p : Province,
        (deadRegionIds s cid).contains p.region = true ↔ provinceUnder s cid p := by
      intro p
      rw [List.elem_iff, mem_deadRegionIds]
      unfold provinceUnder
      constructor
      · rintro ⟨r, hr, hid, hc⟩; exact ⟨r, hr, hid, hc⟩
      · rintro ⟨r, hr, hid, hc⟩; exact ⟨r, hr, hid, hc⟩
    have hcity : ∀ c : City,
        (deadProvinceIds s cid).contains c.province = true ↔ cityUnder s cid c := by
      intro c
      rw [List.elem_iff, mem_deadProvinceIds]
      unfold cityUnder
      constructor
      · rintro ⟨p, hp, hid, hu⟩; exact ⟨p, hp, hid, hu⟩
      · rintro ⟨p, hp, hid, hu⟩; exact ⟨p, hp, hid, hu⟩
    have hbar : ∀ b : Barangay,
        (deadCityIds s cid).contains b.city = true ↔ barangayUnder s cid b := by
      intro b
      rw [List.elem_iff, mem_deadCityIds]
      unfold barangayUnder
      constructor
      · rintro ⟨c, hc, hid, hu⟩; exact ⟨c, hc, hid, hu⟩
      · rintro ⟨c, hc, hid, hu⟩; exact ⟨c, hc, hid, hu⟩
    refine ⟨?_, ?_, ?_, ?_, ?_, ?_, ?_, ?_, ?_⟩
    · intro c hc
      simp only [List.mem_filter, Bool.not_eq_eq_eq_not, Bool.not_true, beq_eq_false_iff_ne,
        ne_eq] at hc
      exact hc.2
    · intro r hr
      simp only [List.mem_filter, Bool.not_eq_eq_eq_not, Bool.not_true, beq_eq_false_iff_ne,
        ne_eq] at hr
      exact fun hu => hr.2 hu
    · intro p hp
      simp only [List.mem_filter, Bool.not_eq_eq_eq_not, Bool.not_true] at hp
      intro hu
      have := (hprov p).mpr hu
      rw [hp.2] at this
      exact Bool.false_ne_true this
    · intro c hc
      simp only [List.mem_filter, Bool.not_eq_eq_eq_not, Bool.not_true] at hc
      intro hu
      have := (hcity c).mpr hu
      rw [hc.2] at this
      exact Bool.false_ne_true this
    · intro b hb
      simp only [List.mem_filter, Bool.not_eq_eq_eq_not, Bool.not_true] at hb
      intro hu
      have := (hbar b).mpr hu
      rw [hb.2] at this
      exact Bool.false_ne_true this
    · intro r hr hu
      simp only [List.mem_filter, Bool.not_eq_eq_eq_not, Bool.not_true, beq_eq_false_iff_ne,
        ne_eq]
      exact ⟨hr, hu⟩
    · intro p hp hu
      simp only [List.mem_filter, Bool.not_eq_eq_eq_not, Bool.not_true]
      refine ⟨hp, ?_⟩
      rw [← Bool.not_eq_true]
      intro hcon
      exact hu ((hprov p).mp hcon)
    · intro c hc hu
      simp only [List.mem_filter, Bool.not_eq_eq_eq_not, Bool.not_true]
      refine ⟨hc, ?_⟩
      rw [← Bool.not_eq_true]
      intro hcon
      exact hu ((hcity c).mp hcon)
    · intro b hb hu
      simp only [List.mem_filter, Bool.not_eq_eq_eq_not, Bool.not_true]
      refine ⟨hb, ?_⟩
      rw [← Bool.not_eq_true]
      intro hcon
      exact hu ((hbar b).mp hcon)

/-- A small populated hierarchy used by the concrete witnesses. -/
def demoGeo : GeoStore :=
  { countries := [{ id := 1, name := "Philippines", code := "PH", is_default := false },
                  { id := 2, name := "Japan", code := "JP", is_default := false }],
    regions := [{ id := 10, name := "NCR", country := 1, full_name := none,
                  is_default := false },
                { id := 11, name := "Kanto", country := 2, full_name := none,
                  is_default := false }],
    provinces := [{ id := 20, name := "Metro Manila", region := 10, full_name := none,
                    is_default := false }],
    cities := [{ id := 30, name := "Manila", province := 20, full_name := none,
                 is_default := false }],
    barangays := [{ id := 40, name := "Ermita", city := 30, full_name := none,
                    is_default := false }] }

/-- Witness for C7: deleting country 1 of the demo hierarchy succeeds,
and the region of country 2 — not a descendant of country 1 —
survives. -/
theorem delete_country_cascades_witness :
    ({ id := 11, name := "Kanto", country := 2, full_name := none,
       is_default := false } : Region) ∈
      (GeoStore.mk
        [{ id := 2, name := "Japan", code := "JP", is_default := false }]
        [{ id := 11, name := "Kanto", country := 2, full_name := none,
           is_default := false }] [] [] []).regions :=
  (delete_country_cascades demoGeo
    (GeoStore.mk
      [{ id := 2, name := "Japan", code := "JP", is_default := false }]
      [{ id := 11, name := "Kanto", country := 2, full_name := none,
         is_default := false }] [] [] [])
    1 rfl).2.2.2.2.2.1
    { id := 11, name := "Kanto", country := 2, full_name := none,
      is_default := false }
    (by simp [demoGeo]) (by simp [regionUnder])

/-! ## C8 : region queries return exactly the direct children -/

/-- C8.  The regions-of-country action returns exactly the regions
whose parent reference equals the looked-up country — never regions of
other countries, and by type never deeper descendants — and the region
list endpoint restricts by parent id and, when a non-empty `name`
parameter is given, by case-insensitive substring match on the name. -/
theorem regions_of_country_exact (s : GeoStore) (cid : Nat) (nm : String)
    (rs : List Region) (hok : regionsOf s cid = .ok (nm, rs)) :
    (∀ r, r ∈ rs ↔ r ∈ s.regions ∧ r.country = cid) ∧
    (∀ r, r ∈ regionQueryset s none (some cid) ↔ r ∈ s.regions ∧ r.country = cid) ∧
    (∀ n r, n ≠ "" →
      (r ∈ regionQueryset s (some n) (some cid) ↔
        r ∈ s.regions ∧ r.country = cid ∧ foldCase n <:+: foldCase r.name)) := by
  unfold regionsOf at hok
  cases hfind : s.countries.find? (fun c => c.id == cid) with
  | none => rw [hfind] at hok; simp at hok
  | some c =>
      rw [hfind] at hok
      simp only [Except.ok.injEq, Prod.mk.injEq] at hok
      have hcid : c.id = cid := by
        have := List.find?_some hfind
        simpa using this
      refine ⟨?_, ?_, ?_⟩
      · intro r
        rw [← hok.2]
        simp [List.mem_filter, hcid]
      · intro r
        unfold regionQueryset
        simp [List.mem_filter]
      · intro n r hn
        simp only [regionQueryset, hn, if_false, List.mem_filter, icontains,
          decide_eq_true_eq, beq_iff_eq, ite_false]
        tauto

/-- The NCR row of the demo hierarchy. -/
def demoRegionNCR : Region :=
  { id := 10, name := "NCR", country := 1, full_name := none, is_default := false }

/-- Witness for C8: the children-of-country-1 result of the demo
hierarchy contains NCR exactly because it is a stored region whose
parent is country 1. -/
theorem regions_of_country_exact_witness :
    demoRegionNCR ∈ demoGeo.regions ∧ demoRegionNCR.country = 1 :=
  ((regions_of_country_exact demoGeo 1 "Philippines" [demoRegionNCR] rfl).1
    demoRegionNCR).mp (by simp)

/-! ## C6 : the plain password is never stored -/

/-- The value of the last `password` entry of a patch, if any: the
value `set_password` is finally called with when the loop finishes. -/
def lastPasswordValue : List (String × String) → Option String
  | [] => none
  | kv :: rest =>
      match lastPasswordValue rest with
      | some pw => some pw
      | none => if kv.1 == "password" then some kv.2 else none

/-- After the update loop, the stored password column holds the hash of
the last `password` value of the patch, or is untouched when the patch
carries none. -/
lemma applyUserPatch_password (u : CustomUser) (patch : List (String × String)) :
    (applyUserPatch u patch).password =
      match lastPasswordValue patch with
      | some pw => hashPassword pw
      | none => u.password := by
  induction patch generalizing u with
  | nil => rfl
  | cons kv rest ih =>
      simp only [applyUserPatch, List.foldl_cons] at *
      rw [ih]
      cases hrest : lastPasswordValue rest with
      | some pw => simp [lastPasswordValue, hrest]
      | none =>
          simp only [lastPasswordValue, hrest]
          by_cases hk : kv.1 == "password"
          · simp [hk]
          · simp only [hk, if_false, Bool.false_eq_true, ite_false]
            by_cases hm : kv.1 == "mobile_no"
            · simp [hm, hk]
            · simp [hm, hk]

/-- Every binding `setAttr` leaves in the attribute columns either was
already there or carries the key just written. -/
lemma setAttr_mem {attrs : List (String × String)} {k v : String} {kv : String × String}
    (h : kv ∈ setAttr attrs k v) : kv.1 = k ∨ kv ∈ attrs := by
  unfold setAttr at h
  split_ifs at h with hc
  · rcases List.mem_map.mp h with ⟨kv0, hkv0, heq⟩
    by_cases hk : kv0.1 == k
    · rw [if_pos hk] at heq
      left; rw [← heq]
    · rw [if_neg hk] at heq
      right; rw [← heq]; exact hkv0
  · rcases List.mem_append.mp h with h1 | h1
    · right; exact h1
    · left; simp only [List.mem_singleton] at h1; rw [h1]

/-- The update loop never writes a `password` key into the ordinary
attribute columns. -/
lemma applyUserPatch_attrs (u : CustomUser) (patch : List (String × String))
    (h : ∀ kv ∈ u.attrs, kv.1 ≠ "password") :
    ∀ kv ∈ (applyUserPatch u patch).attrs, kv.1 ≠ "password" := by
  induction patch generalizing u with
  | nil => exact h
  | cons kv rest ih =>
      simp only [applyUserPatch, List.foldl_cons] at *
      apply ih
      by_cases hk : kv.1 == "password"
      · simp only [hk, if_true, ite_true]
        exact h
      · simp only [hk, Bool.false_eq_true, ite_false]
        by_cases hm : kv.1 == "mobile_no"
        · simp only [hm, if_true, ite_true]
          exact h
        · simp only [hm, Bool.false_eq_true, ite_false]
          intro kv2 hkv2
          rcases setAttr_mem hkv2 with h1 | h1
          · rw [h1]
            intro hc
            rw [hc] at hk
            simp at hk
          · exact h kv2 h1

/-- C6.  The plain password is never stored: registration persists only
the derived hash (never equal to the plain text), and in both profile
updates a `password` key of the identity patch is routed through the
hashing path — the stored column becomes the hash of the patch's last
password value, never the value itself, patches without a password key
leave the column untouched, and no `password` key is ever written to
the ordinary attribute columns. -/
theorem password_never_stored_verbatim
    (users users2 : List CustomUser) (m p : String)
    (e : List (String × String)) (u v : CustomUser)
    (patch : List (String × String)) (b : Buyer) (sl : Seller)
    (bp : BuyerPatch) (sp : SellerPatch)
    (hreg : create_user users m p e = .ok (users2, u))
    (hclean : ∀ kv ∈ v.attrs, kv.1 ≠ "password") :
    (u.password = hashPassword p ∧ u.password ≠ p) ∧
    ((buyerSerializerUpdate b v (some patch) bp).2 = applyUserPatch v patch ∧
     (sellerSerializerUpdate sl v (some patch) sp).2 = applyUserPatch v patch) ∧
    ((applyUserPatch v patch).password =
      match lastPasswordValue patch with
      | some pw => hashPassword pw
      | none => v.password) ∧
    (∀ pw, lastPasswordValue patch = some pw →
      (applyUserPatch v patch).password ≠ pw) ∧
    (∀ kv ∈ (applyUserPatch v patch).attrs, kv.1 ≠ "password") := by
  obtain ⟨-, -, -, -, hu⟩ := create_user_ok hreg
  refine ⟨⟨by rw [hu], ?_⟩, ⟨rfl, rfl⟩, applyUserPatch_password v patch, ?_,
    applyUserPatch_attrs v patch hclean⟩
  · rw [hu]
    exact hashPassword_ne_self p
  · intro pw hpw
    rw [applyUserPatch_password v patch, hpw]
    exact hashPassword_ne_self pw

/-- Witness for C6 on a concrete patch carrying a password key. -/
theorem password_never_stored_verbatim_witness :
    (applyUserPatch demoUser [("first_name", "Ana"), ("password", "newpw")]).password ≠
      "newpw" :=
  (password_never_stored_verbatim [] [demoUser] "09171234567" "secretpw" []
    demoUser demoUser [("first_name", "Ana"), ("password", "newpw")]
    { id := 0, user := 0, is_premium_customer := false,
      preferred_payment_method := "gcash" }
    { id := 0, user := 0, is_free_plan := false, is_premium_plan := false }
    { is_premium_customer := none, preferred_payment_method := none }
    { is_free_plan := none, is_premium_plan := none, shop := none }
    rfl (by simp [demoUser])).2.2.2.1 "newpw" rfl

/-! ## C1 / C9 : the scoped default selector -/

/-- Generic counting fact: in a list whose keys are pairwise distinct,
exactly one element carries the key of a member. -/
lemma countP_key_eq_one {α : Type} (f : α → Nat) {l : List α} {t : Nat} {a : α}
    (hids : (l.map f).Nodup) (ha : a ∈ l) (hat : f a = t) :
    l.countP (fun x => f x == t) = 1 := by
  induction l with
  | nil => cases ha
  | cons x xs ih =>
      simp only [List.map_cons, List.nodup_cons] at hids
      rcases List.mem_cons.mp ha with rfl | hmem
      · rw [List.countP_cons_of_pos _ _ (by simp [hat])]
        have h0 : xs.countP (fun y => f y == t) = 0 := by
          rw [List.countP_eq_zero]
          intro y hy
          simp only [beq_iff_eq]
          intro hc
          refine hids.1 ?_
          rw [hat, ← hc]
          exact List.mem_map_of_mem f hy
        omega
      · rw [List.countP_cons_of_neg _ _ ?_]
        · exact ih hids.2 hmem
        · simp only [beq_iff_eq]
          intro hc
          refine hids.1 ?_
          rw [hc, ← hat]
          exact List.mem_map_of_mem f hmem

/-- A successful shipping set-default in closed form: the target was
found, the payment table is untouched, and the address table is a
pointwise rewrite — the target row saved with the flag on, the other
rows of the same buyer cleared, everything else identical. -/
lemma shippingSetDefault_ok {st out : BuyerStore} {t : Nat}
    (h : shippingSetDefault st t = .ok out) :
    ∃ a, st.addresses.find? (fun x => x.id == t) = some a ∧
      out.payments = st.payments ∧
      out.addresses = st.addresses.map (fun x =>
        if x.id == t then { a with is_default := true }
        else if x.buyer == a.buyer then { x with is_default := false }
        else x) := by
  unfold shippingSetDefault at h
  cases hfind : st.addresses.find? (fun x => x.id == t) with
  | none => rw [hfind] at h; simp at h
  | some a =>
      rw [hfind] at h
      simp only [Except.ok.injEq] at h
      subst h
      refine ⟨a, rfl, rfl, ?_⟩
      simp only [List.map_map]
      apply List.map_congr_left
      intro x _
      by_cases hb : x.buyer == a.buyer
      · by_cases ht : x.id == t
        · simp [Function.comp, hb, ht]
        · simp [Function.comp, hb, ht]
      · by_cases ht : x.id == t
        · simp [Function.comp, hb, ht]
        · simp [Function.comp, hb, ht]

/-- Mirror of `shippingSetDefault_ok` for payment methods. -/
lemma paymentSetDefault_ok {st out : BuyerStore} {t : Nat}
    (h : paymentSetDefault st t = .ok out) :
    ∃ m, st.payments.find? (fun x => x.id == t) = some m ∧
      out.addresses = st.addresses ∧
      out.payments = st.payments.map (fun x =>
        if x.id == t then { m with is_default := true }
        else if x.buyer == m.buyer then { x with is_default := false }
        else x) := by
  unfold paymentSetDefault at h
  cases hfind : st.payments.find? (fun x => x.id == t) with
  | none => rw [hfind] at h; simp at h
  | some m =>
      rw [hfind] at h
      simp only [Except.ok.injEq] at h
      subst h
      refine ⟨m, rfl, rfl, ?_⟩
      simp only [List.map_map]
      apply List.map_congr_left
      intro x _
      by_cases hb : x.buyer == m.buyer
      · by_cases ht : x.id == t
        · simp [Function.comp, hb, ht]
        · simp [Function.comp, hb, ht]
      · by_cases ht : x.id == t
        · simp [Function.comp, hb, ht]
        · simp [Function.comp, hb, ht]

lemma shipping_count_target {st out : BuyerStore} {t : Nat} {a : BuyerShippingAddress}
    (hids : (st.addresses.map (fun x => x.id)).Nodup)
    (hfind : st.addresses.find? (fun x => x.id == t) = some a)
    (hout : out.addresses = st.addresses.map (fun x =>
      if x.id == t then { a with is_default := true }
      else if x.buyer == a.buyer then { x with is_default := false }
      else x)) :
    addrDefaultCount out.addresses a.buyer = 1 := by
  have ha : a ∈ st.addresses := List.mem_of_find?_eq_some hfind
  have hat : a.id = t := by simpa using List.find?_some hfind
  unfold addrDefaultCount
  rw [hout, ← List.countP_eq_length_filter, List.countP_map]
  have hstep : st.addresses.countP ((fun x => x.buyer == a.buyer && x.is_default) ∘
      (fun x => if x.id == t then { a with is_default := true }
        else if x.buyer == a.buyer then { x with is_default := false } else x)) =
      st.addresses.countP (fun x => x.id == t) := by
    apply List.countP_congr
    intro x _
    by_cases ht : x.id == t
    · simp [Function.comp, ht]
    · by_cases hb : x.buyer == a.buyer
      · simp [Function.comp, ht, hb]
      · simp [Function.comp, ht, hb]
  rw [hstep]
  exact countP_key_eq_one (fun x => x.id) hids ha hat

lemma shipping_target_iff {st out : BuyerStore} {t : Nat} {a : BuyerShippingAddress}
    (hfind : st.addresses.find? (fun x => x.id == t) = some a)
    (hout : out.addresses = st.addresses.map (fun x =>
      if x.id == t then { a with is_default := true }
      else if x.buyer == a.buyer then { x with is_default := false }
      else x)) :
    ∀ x ∈ out.addresses, x.buyer = a.buyer → (x.is_default = true ↔ x.id = t) := by
  have hat : a.id = t := by simpa using List.find?_some hfind
  intro x hx hbuy
  rw [hout] at hx
  rcases List.mem_map.mp hx with ⟨y, hy, rfl⟩
  by_cases ht : y.id == t
  · simp only [ht, if_true, ite_true]
    simp [hat]
  · by_cases hb : y.buyer == a.buyer
    · simp only [ht, Bool.false_eq_true, ite_false, hb, if_true, ite_true]
      simp only [beq_iff_eq] at ht
      simpa using ht
    · simp only [ht, Bool.false_eq_true, ite_false, hb] at hbuy ⊢
      simp only [beq_iff_eq] at hb
      exact absurd hbuy hb

lemma shipping_count_other {st out : BuyerStore} {t b : Nat}
    {a : BuyerShippingAddress}
    (hids : (st.addresses.map (fun x => x.id)).Nodup)
    (hfind : st.addresses.find? (fun x => x.id == t) = some a)
    (hout : out.addresses = st.addresses.map (fun x =>
      if x.id == t then { a with is_default := true }
      else if x.buyer == a.buyer then { x with is_default := false }
      else x))
    (hb : b ≠ a.buyer) :
    addrDefaultCount out.addresses b = addrDefaultCount st.addresses b := by
  have ha : a ∈ st.addresses := List.mem_of_find?_eq_some hfind
  have hat : a.id = t := by simpa using List.find?_some hfind
  unfold addrDefaultCount
  rw [hout, ← List.countP_eq_length_filter, ← List.countP_eq_length_filter,
    List.countP_map]
  apply List.countP_congr
  intro x hx
  by_cases ht : x.id == t
  · have hxa : x = a := by
      apply List.inj_on_of_nodup_map hids hx ha
      simp only [beq_iff_eq] at ht
      rw [ht, hat]
    subst hxa
    have hba : (x.buyer == b) = false := by
      simp only [beq_eq_false_iff_ne, ne_eq]
      exact fun hc => hb hc.symm
    simp [Function.comp, ht, hba]
  · by_cases hbuy : x.buyer == a.buyer
    · have hxb : (x.buyer == b) = false := by
        simp only [beq_iff_eq] at hbuy
        simp only [beq_eq_false_iff_ne, ne_eq, hbuy]
        exact fun hc => hb hc.symm
      simp [Function.comp, ht, hbuy, hxb]
    · simp [Function.comp, ht, hbuy]

lemma shipping_ids_preserved {st out : BuyerStore} {t : Nat}
    {a : BuyerShippingAddress}
    (hfind : st.addresses.find? (fun x => x.id == t) = some a)
    (hout : out.addresses = st.addresses.map (fun x =>
      if x.id == t then { a with is_default := true }
      else if x.buyer == a.buyer then { x with is_default := false }
      else x)) :
    out.addresses.map (fun x => x.id) = st.addresses.map (fun x => x.id) := by
  have hat : a.id = t := by simpa using List.find?_some hfind
  rw [hout, List.map_map]
  apply List.map_congr_left
  intro x _
  by_cases ht : x.id == t
  · simp only [beq_iff_eq] at ht
    simp [Function.comp, ht, hat]
  · by_cases hb : x.buyer == a.buyer
    · simp [Function.comp, ht, hb]
    · simp [Function.comp, ht, hb]

/-- One successful shipping set-default keeps the singleton-default
bound for every buyer, preserves key distinctness, and leaves the
payment table alone. -/
lemma shippingSetDefault_preserves {st out : BuyerStore} {t : Nat}
    (hids : (st.addresses.map (fun x => x.id)).Nodup)
    (h : shippingSetDefault st t = .ok out)
    (hinit : ∀ b, addrDefaultCount st.addresses b ≤ 1) :
    (∀ b, addrDefaultCount out.addresses b ≤ 1) ∧
    (out.addresses.map (fun x => x.id)).Nodup ∧
    out.payments = st.payments := by
  obtain ⟨a, hfind, hpay, hout⟩ := shippingSetDefault_ok h
  refine ⟨?_, ?_, hpay⟩
  · intro b
    by_cases hb : b = a.buyer
    · subst hb
      rw [shipping_count_target hids hfind hout]
    · rw [shipping_count_other hids hfind hout hb]
      exact hinit b
  · rw [shipping_ids_preserved hfind hout]
    exact hids

lemma runShipping_preserves (ts : List Nat) (st : BuyerStore)
    (hids : (st.addresses.map (fun x => x.id)).Nodup)
    (hinit : ∀ b, addrDefaultCount st.addresses b ≤ 1) :
    ∀ b, addrDefaultCount (runShippingSetDefaults st ts).addresses b ≤ 1 := by
  induction ts generalizing st with
  | nil => exact hinit
  | cons t rest ih =>
      show ∀ b, addrDefaultCount
        (runShippingSetDefaults
          (match shippingSetDefault st t with
            | .ok s2 => s2
            | .error _ => st) rest).addresses b ≤ 1
      cases hstep : shippingSetDefault st t with
      | error e => exact ih st hids hinit
      | ok out =>
          obtain ⟨hbound, hnodup, -⟩ := shippingSetDefault_preserves hids hstep hinit
          exact ih out hnodup hbound

lemma payment_count_target {st out : BuyerStore} {t : Nat} {m : BuyerPaymentMethod}
    (hids : (st.payments.map (fun x => x.id)).Nodup)
    (hfind : st.payments.find? (fun x => x.id == t) = some m)
    (hout : out.payments = st.payments.map (fun x =>
      if x.id == t then { m with is_default := true }
      else if x.buyer == m.buyer then { x with is_default := false }
      else x)) :
    payDefaultCount out.payments m.buyer = 1 := by
  have ha : m ∈ st.payments := List.mem_of_find?_eq_some hfind
  have hat : m.id = t := by simpa using List.find?_some hfind
  unfold payDefaultCount
  rw [hout, ← List.countP_eq_length_filter, List.countP_map]
  have hstep : st.payments.countP ((fun x => x.buyer == m.buyer && x.is_default) ∘
      (fun x => if x.id == t then { m with is_default := true }
        else if x.buyer == m.buyer then { x with is_default := false } else x)) =
      st.payments.countP (fun x => x.id == t) := by
    apply List.countP_congr
    intro x _
    by_cases ht : x.id == t
    · simp [Function.comp, ht]
    · by_cases hb : x.buyer == m.buyer
      · simp [Function.comp, ht, hb]
      · simp [Function.comp, ht, hb]
  rw [hstep]
  exact countP_key_eq_one (fun x => x.id) hids ha hat

lemma payment_target_iff {st out : BuyerStore} {t : Nat} {m : BuyerPaymentMethod}
    (hfind : st.payments.find? (fun x => x.id == t) = some m)
    (hout : out.payments = st.payments.map (fun x =>
      if x.id == t then { m with is_default := true }
      else if x.buyer == m.buyer then { x with is_default := false }
      else x)) :
    ∀ x ∈ out.payments, x.buyer = m.buyer → (x.is_default = true ↔ x.id = t) := by
  have hat : m.id = t := by simpa using List.find?_some hfind
  intro x hx hbuy
  rw [hout] at hx
  rcases List.mem_map.mp hx with ⟨y, hy, rfl⟩
  by_cases ht : y.id == t
  · simp only [ht, if_true, ite_true]
    simp [hat]
  · by_cases hb : y.buyer == m.buyer
    · simp only [ht, Bool.false_eq_true, ite_false, hb, if_true, ite_true]
      simp only [beq_iff_eq] at ht
      simpa using ht
    · simp only [ht, Bool.false_eq_true, ite_false, hb] at hbuy ⊢
      simp only [beq_iff_eq] at hb
      exact absurd hbuy hb

lemma payment_count_other {st out : BuyerStore} {t b : Nat}
    {m : BuyerPaymentMethod}
    (hids : (st.payments.map (fun x => x.id)).Nodup)
    (hfind : st.payments.find? (fun x => x.id == t) = some m)
    (hout : out.payments = st.payments.map (fun x =>
      if x.id == t then { m with is_default := true }
      else if x.buyer == m.buyer then { x with is_default := false }
      else x))
    (hb : b ≠ m.buyer) :
    payDefaultCount out.payments b = payDefaultCount st.payments b := by
  have ha : m ∈ st.payments := List.mem_of_find?_eq_some hfind
  have hat : m.id = t := by simpa using List.find?_some hfind
  unfold payDefaultCount
  rw [hout, ← List.countP_eq_length_filter, ← List.countP_eq_length_filter,
    List.countP_map]
  apply List.countP_congr
  intro x hx
  by_cases ht : x.id == t
  · have hxa : x = m := by
      apply List.inj_on_of_nodup_map hids hx ha
      simp only [beq_iff_eq] at ht
      rw [ht, hat]
    subst hxa
    have hba : (x.buyer == b) = false := by
      simp only [beq_eq_false_iff_ne, ne_eq]
      exact fun hc => hb hc.symm
    simp [Function.comp, ht, hba]
  · by_cases hbuy : x.buyer == m.buyer
    · have hxb : (x.buyer == b) = false := by
        simp only [beq_iff_eq] at hbuy
        simp only [beq_eq_false_iff_ne, ne_eq, hbuy]
        exact fun hc => hb hc.symm
      simp [Function.comp, ht, hbuy, hxb]
    · simp [Function.comp, ht, hbuy]

lemma payment_ids_preserved {st out : BuyerStore} {t : Nat}
    {m : BuyerPaymentMethod}
    (hfind : st.payments.find? (fun x => x.id == t) = some m)
    (hout : out.payments = st.payments.map (fun x =>
      if x.id == t then { m with is_default := true }
      else if x.buyer == m.buyer then { x with is_default := false }
      else x)) :
    out.payments.map (fun x => x.id) = st.payments.map (fun x => x.id) := by
  have hat : m.id = t := by simpa using List.find?_some hfind
  rw [hout, List.map_map]
  apply List.map_congr_left
  intro x _
  by_cases ht : x.id == t
  · simp only [beq_iff_eq] at ht
    simp [Function.comp, ht, hat]
  · by_cases hb : x.buyer == m.buyer
    · simp [Function.comp, ht, hb]
    · simp [Function.comp, ht, hb]

/-- One successful payment set-default keeps the singleton-default
bound for every buyer, preserves key distinctness, and leaves the
address table alone. -/
lemma paymentSetDefault_preserves {st out : BuyerStore} {t : Nat}
    (hids : (st.payments.map (fun x => x.id)).Nodup)
    (h : paymentSetDefault st t = .ok out)
    (hinit : ∀ b, payDefaultCount st.payments b ≤ 1) :
    (∀ b, payDefaultCount out.payments b ≤ 1) ∧
    (out.payments.map (fun x => x.id)).Nodup ∧
    out.addresses = st.addresses := by
  obtain ⟨m, hfind, haddr, hout⟩ := paymentSetDefault_ok h
  refine ⟨?_, ?_, haddr⟩
  · intro b
    by_cases hb : b = m.buyer
    · subst hb
      rw [payment_count_target hids hfind hout]
    · rw [payment_count_other hids hfind hout hb]
      exact hinit b
  · rw [payment_ids_preserved hfind hout]
    exact hids

lemma runPayment_preserves (ts : List Nat) (st : BuyerStore)
    (hids : (st.payments.map (fun x => x.id)).Nodup)
    (hinit : ∀ b, payDefaultCount st.payments b ≤ 1) :
    ∀ b, payDefaultCount (runPaymentSetDefaults st ts).payments b ≤ 1 := by
  induction ts generalizing st with
  | nil => exact hinit
  | cons t rest ih =>
      show ∀ b, payDefaultCount
        (runPaymentSetDefaults
          (match paymentSetDefault st t with
            | .ok s2 => s2
            | .error _ => st) rest).payments b ≤ 1
      cases hstep : paymentSetDefault st t with
      | error e => exact ih st hids hinit
      | ok out =>
          obtain ⟨hbound, hnodup, -⟩ := paymentSetDefault_preserves hids hstep hinit
          exact ih out hnodup hbound

/-- C1.  For both entity types of the scoped default selector: after a
successful set-default call, the targeted buyer owns exactly one
default entity of that type, and it is the targeted one (a row of that
buyer is default iff it is the target); and along any sequence of
set-default calls started from a store satisfying the singleton bound,
every buyer owns at most one default entity of each type at every
observation point. -/
theorem set_default_singleton
    (st stp out outp : BuyerStore) (t tp : Nat) (ts tsp : List Nat)
    (hidsA : (st.addresses.map (fun x => x.id)).Nodup)
    (hidsP : (stp.payments.map (fun x => x.id)).Nodup)
    (hokA : shippingSetDefault st t = .ok out)
    (hokP : paymentSetDefault stp tp = .ok outp)
    (hinitA : ∀ b, addrDefaultCount st.addresses b ≤ 1)
    (hinitP : ∀ b, payDefaultCount stp.payments b ≤ 1) :
    (∃ a, st.addresses.find? (fun x => x.id == t) = some a ∧
      addrDefaultCount out.addresses a.buyer = 1 ∧
      ∀ x ∈ out.addresses, x.buyer = a.buyer → (x.is_default = true ↔ x.id = t)) ∧
    (∃ m, stp.payments.find? (fun x => x.id == tp) = some m ∧
      payDefaultCount outp.payments m.buyer = 1 ∧
      ∀ x ∈ outp.payments, x.buyer = m.buyer → (x.is_default = true ↔ x.id = tp)) ∧
    (∀ b, addrDefaultCount (runShippingSetDefaults st ts).addresses b ≤ 1) ∧
    (∀ b, payDefaultCount (runPaymentSetDefaults stp tsp).payments b ≤ 1) := by
  obtain ⟨a, hfindA, -, houtA⟩ := shippingSetDefault_ok hokA
  obtain ⟨m, hfindP, -, houtP⟩ := paymentSetDefault_ok hokP
  exact ⟨⟨a, hfindA, shipping_count_target hidsA hfindA houtA,
      shipping_target_iff hfindA houtA⟩,
    ⟨m, hfindP, payment_count_target hidsP hfindP houtP,
      payment_target_iff hfindP houtP⟩,
    runShipping_preserves ts st hidsA hinitA,
    runPayment_preserves tsp stp hidsP hinitP⟩

/-- A shipping-address row with only the selector-relevant fields
populated. -/
def demoAddr (i b : Nat) (d : Bool) : BuyerShippingAddress :=
  { id := i, buyer := b, address1 := none, address2 := none, barangay := none,
    city := none, province := none, region := none, country := none,
    zip_code := none, geolocation := none, latitude := none, longitude := none,
    google_maps_url := none, google_maps_image := none, is_active := true,
    is_default := d, is_verified := false, is_deleted := false,
    is_approved := false }

/-- A payment-method row with only the selector-relevant fields
populated. -/
def demoPay (i b : Nat) (d : Bool) : BuyerPaymentMethod :=
  { id := i, buyer := b, payment_method := "gcash",
    payment_method_details := none, bank_card_type := none,
    bank_card_brand := none, bank_card_last4 := none,
    bank_card_exp_month := none, bank_card_exp_year := none,
    bank_card_name := none, bank_card_number := none, is_active := true,
    is_default := d, is_verified := false, is_deleted := false,
    is_approved := false }

/-- Two buyers; buyer 1 owns addresses 1 and 2 and payment methods 5
and 6, buyer 2 owns address 3; nothing is default yet. -/
def demoBuyerStore : BuyerStore :=
  { addresses := [demoAddr 1 1 false, demoAddr 2 1 false, demoAddr 3 2 false],
    payments := [demoPay 5 1 false, demoPay 6 1 false] }

/-- The demo store after setting address 2 and payment method 5
default. -/
def demoBuyerStoreAfter : BuyerStore :=
  { addresses := [demoAddr 1 1 false, demoAddr 2 1 true, demoAddr 3 2 false],
    payments := [demoPay 5 1 true, demoPay 6 1 false] }

lemma demo_no_addr_default : ∀ b, addrDefaultCount demoBuyerStore.addresses b ≤ 1 := by
  intro b
  simp [addrDefaultCount, demoBuyerStore, demoAddr, List.filter]

lemma demo_no_pay_default : ∀ b, payDefaultCount demoBuyerStore.payments b ≤ 1 := by
  intro b
  simp [payDefaultCount, demoBuyerStore, demoPay, List.filter]

/-- Witness for C1: after setting address 2 default for buyer 1 of the
demo store, buyer 1 owns exactly one default address. -/
theorem set_default_singleton_witness :
    addrDefaultCount
      (BuyerStore.mk
        [demoAddr 1 1 false, demoAddr 2 1 true, demoAddr 3 2 false]
        [demoPay 5 1 false, demoPay 6 1 false]).addresses 1 = 1 := by
  obtain ⟨⟨a, hfind, hcount, -⟩, -, -, -⟩ :=
    set_default_singleton demoBuyerStore demoBuyerStore
      (BuyerStore.mk
        [demoAddr 1 1 false, demoAddr 2 1 true, demoAddr 3 2 false]
        [demoPay 5 1 false, demoPay 6 1 false])
      (BuyerStore.mk
        [demoAddr 1 1 false, demoAddr 2 1 false, demoAddr 3 2 false]
        [demoPay 5 1 true, demoPay 6 1 false])
      2 5 [] [] (by decide) (by decide) rfl rfl
      demo_no_addr_default demo_no_pay_default
  have ha : a = demoAddr 2 1 false := by
    have hcalc : demoBuyerStore.addresses.find? (fun x => x.id == 2) =
        some (demoAddr 2 1 false) := rfl
    rw [hcalc] at hfind
    exact (Option.some_inj.mp hfind).symm
  rw [ha] at hcount
  exact hcount

/-- C9.  A successful set-default call touches only the `is_default`
flags of its own table, and only rows of the target's buyer: the other
table is returned unchanged, row order and count are preserved, every
row differs from its predecessor at most in `is_default`, and rows of
other buyers are strictly identical. -/
theorem set_default_frame
    (st stp out outp : BuyerStore) (t tp : Nat)
    (hidsA : (st.addresses.map (fun x => x.id)).Nodup)
    (hidsP : (stp.payments.map (fun x => x.id)).Nodup)
    (hokA : shippingSetDefault st t = .ok out)
    (hokP : paymentSetDefault stp tp = .ok outp) :
    out.payments = st.payments ∧
    outp.addresses = stp.addresses ∧
    out.addresses.length = st.addresses.length ∧
    outp.payments.length = stp.payments.length ∧
    (∃ a, st.addresses.find? (fun x => x.id == t) = some a ∧
      ∀ i (h1 : i < st.addresses.length) (h2 : i < out.addresses.length),
        out.addresses[i] =
          { st.addresses[i] with is_default := out.addresses[i].is_default } ∧
        (st.addresses[i].buyer ≠ a.buyer → out.addresses[i] = st.addresses[i])) ∧
    (∃ m, stp.payments.find? (fun x => x.id == tp) = some m ∧
      ∀ i (h1 : i < stp.payments.length) (h2 : i < outp.payments.length),
        outp.payments[i] =
          { stp.payments[i] with is_default := outp.payments[i].is_default } ∧
        (stp.payments[i].buyer ≠ m.buyer → outp.payments[i] = stp.payments[i])) := by
  obtain ⟨a, hfindA, hpayA, houtA⟩ := shippingSetDefault_ok hokA
  obtain ⟨m, hfindP, haddrP, houtP⟩ := paymentSetDefault_ok hokP
  have haA : a ∈ st.addresses := List.mem_of_find?_eq_some hfindA
  have hatA : a.id = t := by simpa using List.find?_some hfindA
  have haP : m ∈ stp.payments := List.mem_of_find?_eq_some hfindP
  have hatP : m.id = tp := by simpa using List.find?_some hfindP
  refine ⟨hpayA, haddrP, by rw [houtA, List.length_map],
    by rw [houtP, List.length_map], ⟨a, hfindA, ?_⟩, ⟨m, hfindP, ?_⟩⟩
  · intro i h1 h2
    have hget : out.addresses[i] =
        (fun x => if x.id == t then { a with is_default := true }
          else if x.buyer == a.buyer then { x with is_default := false }
          else x) st.addresses[i] := by
      simp only [houtA, List.getElem_map]
    set x := st.addresses[i] with hx
    have hxm : x ∈ st.addresses := by
      rw [hx]
      exact List.getElem_mem h1
    by_cases ht : x.id == t
    · have hxa : x = a := by
        apply List.inj_on_of_nodup_map hidsA hxm haA
        simp only [beq_iff_eq] at ht
        rw [ht, hatA]
      rw [hget]
      simp only [ht, if_true, ite_true]
      rw [← hxa]
      exact ⟨rfl, fun hb => absurd rfl hb⟩
    · by_cases hb : x.buyer == a.buyer
      · rw [hget]
        simp only [ht, Bool.false_eq_true, ite_false, hb, if_true, ite_true]
        refine ⟨trivial, ?_⟩
        intro hc
        simp only [beq_iff_eq] at hb
        exact absurd hb hc
      · rw [hget]
        simp only [ht, Bool.false_eq_true, ite_false, hb]
        exact ⟨trivial, by intros; trivial⟩
  · intro i h1 h2
    have hget : outp.payments[i] =
        (fun x => if x.id == tp then { m with is_default := true }
          else if x.buyer == m.buyer then { x with is_default := false }
          else x) stp.payments[i] := by
      simp only [houtP, List.getElem_map]
    set x := stp.payments[i] with hx
    have hxm : x ∈ stp.payments := by
      rw [hx]
      exact List.getElem_mem h1
    by_cases ht : x.id == tp
    · have hxa : x = m := by
        apply List.inj_on_of_nodup_map hidsP hxm haP
        simp only [beq_iff_eq] at ht
        rw [ht, hatP]
      rw [hget]
      simp only [ht, if_true, ite_true]
      rw [← hxa]
      exact ⟨rfl, fun hb => absurd rfl hb⟩
    · by_cases hb : x.buyer == m.buyer
      · rw [hget]
        simp only [ht, Bool.false_eq_true, ite_false, hb, if_true, ite_true]
        refine ⟨trivial, ?_⟩
        intro hc
        simp only [beq_iff_eq] at hb
        exact absurd hb hc
      · rw [hget]
        simp only [ht, Bool.false_eq_true, ite_false, hb]
        exact ⟨trivial, by intros; trivial⟩

/-- Witness for C9: setting address 2 default in the demo store leaves
the payment table untouched. -/
theorem set_default_frame_witness :
    (BuyerStore.mk
      [demoAddr 1 1 false, demoAddr 2 1 true, demoAddr 3 2 false]
      [demoPay 5 1 false, demoPay 6 1 false]).payments =
      demoBuyerStore.payments :=
  (set_default_frame demoBuyerStore demoBuyerStore
    (BuyerStore.mk
      [demoAddr 1 1 false, demoAddr 2 1 true, demoAddr 3 2 false]
      [demoPay 5 1 false, demoPay 6 1 false])
    (BuyerStore.mk
      [demoAddr 1 1 false, demoAddr 2 1 false, demoAddr 3 2 false]
      [demoPay 5 1 true, demoPay 6 1 false])
    2 5 (by decide) (by decide) rfl rfl).1

end Julie
